import Mathlib

/-!
Shallow embedding of the to-do CRUD service in `src/main.py`.

The service keeps one relational table `items` (SQLAlchemy model `Item`,
columns id / title / description / completed / priority) and exposes five
handlers: `create_item`, `get_items`, `get_item`, `update_item`,
`delete_item`.  We model the table as a list of rows together with the
next auto-assigned primary key, each handler as a pure function from the
database state (plus the request data) to the next state and an
HTTP-level response (`Except HErr _`), and the Pydantic / FastAPI
boundary validation (`ItemCreate`, the `Query` patterns of `get_items`)
as explicit validation functions on raw payloads.
-/

namespace Todo

/-- A row of the `items` table (SQLAlchemy model `Item`, main.py lines 13-22).
`id` is the integer primary key auto-assigned by the database; `description`
is nullable; `completed` is stored by SQLite as 0/1 with `false < true`. -/
structure Item where
  id : Nat
  title : String
  description : Option String
  completed : Bool
  priority : Int
deriving Repr, DecidableEq

/-- A validated create/update payload (Pydantic model `ItemCreate`,
main.py lines 30-47), after validation succeeded. -/
structure ItemCreate where
  title : String
  description : Option String
  completed : Bool
  priority : Int
deriving Repr, DecidableEq

/-- A raw JSON body for the create/update endpoints, before Pydantic
validation: every field may be absent.  (A present `description` may still
be JSON null, hence `Option (Option String)`.) -/
structure RawItem where
  title : Option String
  description : Option (Option String)
  completed : Option Bool
  priority : Option Int
deriving Repr, DecidableEq

/-- Pydantic validation of `ItemCreate` (main.py lines 30-47): `title` is a
required `str` with no further constraint, `description` defaults to None,
`completed` to False, `priority` to 1, and the `validate_priority` field
validator rejects any priority outside \x7b1, 2, 3\x7d.  FastAPI runs this
before the handler, so a validation error (HTTP 422) happens before any
database access. -/
def ItemCreate.validate (raw : RawItem) : Except String ItemCreate :=
  match raw.title with
  | none => .error "Field required"
  | some t =>
    let p := raw.priority.getD 1
    if p = 1 ∨ p = 2 ∨ p = 3 then
      .ok ⟨t, raw.description.getD none, raw.completed.getD false, p⟩
    else
      .error "Priority must be 1 (Low), 2 (Medium), or 3 (High)"

/-- The database state: the rows of the `items` table in insertion order,
plus the next primary key the engine will assign. -/
structure DB where
  rows : List Item
  nextId : Nat
deriving Repr, DecidableEq

/-- Well-formedness of a database state, as guaranteed by the engine's
primary-key assignment: every stored id is below the next fresh id, and no
two rows share an id. -/
def DB.WF (db : DB) : Prop :=
  (∀ r ∈ db.rows, r.id < db.nextId) ∧ (db.rows.map Item.id).Nodup

instance (db : DB) : Decidable db.WF := by
  unfold DB.WF; infer_instance

/-- The title-uniqueness invariant of the spec: no two rows share a title. -/
def uniqueTitles (rows : List Item) : Prop :=
  (rows.map Item.title).Nodup

instance (rows : List Item) : Decidable (uniqueTitles rows) := by
  unfold uniqueTitles; infer_instance

/-- HTTP error responses raised by the handlers: `badRequest` and
`notFound` via `HTTPException`, `internalError` for an exception that
escapes the handler (an `IntegrityError` from a database constraint
surfaces as HTTP 500). -/
inductive HErr where
  | badRequest (detail : String)
  | notFound (detail : String)
  | internalError (detail : String)
deriving Repr, DecidableEq

/-- Handler `create_item` (main.py lines 74-95): if some row already has the
requested title, raise 400 and write nothing; otherwise insert a new row
with a fresh id and return it. -/
def create_item (db : DB) (item : ItemCreate) : DB × Except HErr Item :=
  match db.rows.find? (fun r => r.title == item.title) with
  | some _ => (db, .error (.badRequest "Item with this title already exists"))
  | none =>
    let db_item : Item :=
      ⟨db.nextId, item.title, item.description, item.completed, item.priority⟩
    (⟨db.rows ++ [db_item], db.nextId + 1⟩, .ok db_item)

/-- Handler `get_item` (main.py lines 127-139): return the first row with
the requested id, or 404.  It performs no write, so it returns no state. -/
def get_item (db : DB) (item_id : Nat) : Except HErr Item :=
  match db.rows.find? (fun r => r.id == item_id) with
  | none => .error (.notFound "Item not found")
  | some r => .ok r

/-- Overwriting the four mutable fields of a row with a payload, as the
four assignments of `update_item` (main.py lines 154-157) do. -/
def updateRow (item : ItemCreate) (r : Item) : Item :=
  { r with
    title := item.title
    description := item.description
    completed := item.completed
    priority := item.priority }

/-- Replace the first element satisfying `p` by `r'`, leaving everything
else in place: the effect on the row list of mutating the object returned
by `.first()` and committing. -/
def setFirst (p : Item → Bool) (r' : Item) : List Item → List Item
  | [] => []
  | x :: xs => if p x then r' :: xs else x :: setFirst p r' xs

/-- Handler `update_item` (main.py lines 141-160): 404 if no row has the
id, else overwrite title, description, completed and priority of that row
and return the updated record.  The handler itself performs no uniqueness
re-check on the new title, but the `title` column carries a database-level
UNIQUE index (main.py line 19), so when the new title duplicates another
row's title the `db.commit()` on line 158 raises `IntegrityError`: the
exception escapes the handler as HTTP 500 and the session teardown rolls
the transaction back, leaving the table unchanged. -/
def update_item (db : DB) (item_id : Nat) (item : ItemCreate) :
    DB × Except HErr Item :=
  match db.rows.find? (fun r => r.id == item_id) with
  | none => (db, .error (.notFound "Item not found"))
  | some r =>
    let r' := updateRow item r
    if db.rows.any (fun x => x.id != item_id && x.title == item.title) then
      (db, .error (.internalError "UNIQUE constraint failed: items.title"))
    else
      (⟨setFirst (fun x => x.id == item_id) r' db.rows, db.nextId⟩, .ok r')

/-- Handler `delete_item` (main.py lines 162-176): 404 if no row has the
id, else remove that row and return the confirmation message. -/
def delete_item (db : DB) (item_id : Nat) : DB × Except HErr String :=
  match db.rows.find? (fun r => r.id == item_id) with
  | none => (db, .error (.notFound "Item not found"))
  | some _ =>
    (⟨db.rows.eraseP (fun r => r.id == item_id), db.nextId⟩, .ok "Item deleted")

/-- The sort fields admitted by the `sort_by` query pattern of `get_items`
(main.py line 102). -/
inductive SortBy where
  | id
  | title
  | completed
  | priority
deriving Repr, DecidableEq

/-- The sort directions admitted by the `sort_order` query pattern of
`get_items` (main.py line 103). -/
inductive SortOrder where
  | asc
  | desc
deriving Repr, DecidableEq

/-- The FastAPI boundary check on `sort_by`: the regex
`^(id|title|completed|priority)$` (main.py line 102) accepts exactly these
four strings. -/
def parseSortBy (s : String) : Option SortBy :=
  if s = "id" then some .id
  else if s = "title" then some .title
  else if s = "completed" then some .completed
  else if s = "priority" then some .priority
  else none

/-- The FastAPI boundary check on `sort_order`: the regex `^(asc|desc)$`
(main.py line 103). -/
def parseSortOrder (s : String) : Option SortOrder :=
  if s = "asc" then some .asc
  else if s = "desc" then some .desc
  else none

/-- FastAPI validation of the list-endpoint query parameters
(main.py lines 98-104): `skip` and `limit` are plain `int` parameters with
no bounds, only `sort_by` and `sort_order` are pattern-checked.  On success
all four values pass through unchanged. -/
def validateListParams (skip limit : Int) (sort_by sort_order : String) :
    Option (Int × Int × SortBy × SortOrder) :=
  match parseSortBy sort_by, parseSortOrder sort_order with
  | some f, some o => some (skip, limit, f, o)
  | _, _ => none

/-- Boolean comparison of two rows on one sort field, in ascending
direction, matching the SQL ORDER BY collation for each column type:
integers numerically, titles as text, `completed` with false before true. -/
def fieldLE : SortBy → Item → Item → Bool
  | .id, a, b => decide (a.id ≤ b.id)
  | .title, a, b => decide (a.title ≤ b.title)
  | .completed, a, b => decide (a.completed ≤ b.completed)
  | .priority, a, b => decide (a.priority ≤ b.priority)

/-- The comparison `ORDER BY <sort_by> <sort_order>` uses: the field
comparison for `asc` (main.py line 119), its reverse for `desc`
(main.py line 121). -/
def sortLE (sb : SortBy) (so : SortOrder) (a b : Item) : Bool :=
  match so with
  | .asc => fieldLE sb a b
  | .desc => fieldLE sb b a

/-- SQL `OFFSET skip LIMIT limit` on a row list (main.py line 124), with
the SQLite semantics for out-of-range values: a negative offset acts like
0, a negative limit means no upper bound. -/
def sliceSql (skip limit : Int) (l : List Item) : List Item :=
  let dropped := l.drop skip.toNat
  if limit < 0 then dropped else dropped.take limit.toNat

/-- Handler `get_items` (main.py lines 97-125): order all rows by the
requested field and direction, then apply offset and limit. -/
def get_items (db : DB) (skip limit : Int) (sb : SortBy) (so : SortOrder) :
    List Item :=
  sliceSql skip limit (db.rows.mergeSort (sortLE sb so))

/-- Database states reachable by the service: the empty table created at
startup (`Base.metadata.create_all`, first rowid 1), followed by any
sequence of create, update and delete requests.  (`get_items` and
`get_item` perform no write.) -/
inductive Reachable : DB → Prop where
  | init : Reachable ⟨[], 1⟩
  | create {db : DB} (item : ItemCreate) :
      Reachable db → Reachable (create_item db item).1
  | update {db : DB} (item_id : Nat) (item : ItemCreate) :
      Reachable db → Reachable (update_item db item_id item).1
  | delete {db : DB} (item_id : Nat) :
      Reachable db → Reachable (delete_item db item_id).1

/-! ### Helper lemmas -/

theorem setFirst_length (p : Item → Bool) (r' : Item) :
    ∀ l : List Item, (setFirst p r' l).length = l.length := by
  intro l
  induction l with
  | nil => rfl
  | cons x xs ih =>
    by_cases h : p x <;> simp [setFirst, h, ih]

theorem setFirst_get?_of_not (p : Item → Bool) (r' : Item) :
    ∀ (l : List Item) (i : Nat) (x : Item),
      l[i]? = some x → p x = false → (setFirst p r' l)[i]? = some x := by
  intro l
  induction l with
  | nil => intro i x h; simp at h
  | cons a t ih =>
    intro i x h hp
    by_cases ha : p a
    · cases i with
      | zero =>
        simp only [List.getElem?_cons_zero, Option.some_inj] at h
        rw [h] at ha
        rw [hp] at ha
        simp at ha
      | succ j =>
        simp only [List.getElem?_cons_succ] at h
        simp [setFirst, ha, h]
    · cases i with
      | zero =>
        simpa [setFirst, ha] using h
      | succ j =>
        simp only [List.getElem?_cons_succ] at h
        simp only [setFirst, ha, Bool.false_eq_true, if_false,
          List.getElem?_cons_succ]
        exact ih j x h hp

theorem setFirst_mem (p : Item → Bool) (r' : Item) :
    ∀ (l : List Item) (r : Item), l.find? p = some r → r' ∈ setFirst p r' l := by
  intro l
  induction l with
  | nil => intro r h; simp at h
  | cons x xs ih =>
    intro r h
    by_cases hx : p x
    · simp [setFirst, hx]
    · rw [List.find?_cons] at h
      simp only [Bool.not_eq_true] at hx
      rw [hx] at h
      simp only [setFirst, hx, Bool.false_eq_true, if_false, List.mem_cons]
      exact Or.inr (ih r h)

theorem find?_concat_of_fresh (p : Item → Bool) (x : Item) (hx : p x = true) :
    ∀ l : List Item, (∀ r ∈ l, p r = false) → (l ++ [x]).find? p = some x := by
  intro l hl
  rw [List.find?_append]
  have h1 : l.find? p = none := by
    rw [List.find?_eq_none]
    intro r hr
    simp [hl r hr]
  simp [h1, List.find?_cons, hx]

theorem mem_eraseP_id (i : Nat) :
    ∀ l : List Item, (l.map Item.id).Nodup →
      ∀ x : Item, x ∈ l.eraseP (fun r => r.id == i) ↔ x ∈ l ∧ x.id ≠ i := by
  intro l
  induction l with
  | nil => intro _ x; simp
  | cons a t ih =>
    intro hnd x
    rw [List.map_cons, List.nodup_cons] at hnd
    obtain ⟨ha, ht⟩ := hnd
    by_cases hp : a.id = i
    · rw [List.eraseP_cons_of_pos (by simp [hp])]
      constructor
      · intro hx
        refine ⟨List.mem_cons_of_mem a hx, ?_⟩
        intro hxi
        exact ha (hp ▸ hxi ▸ List.mem_map_of_mem Item.id hx)
      · rintro ⟨hx, hxi⟩
        rcases List.mem_cons.mp hx with rfl | hx
        · exact absurd hp hxi
        · exact hx
    · rw [List.eraseP_cons_of_neg (by simp [hp])]
      constructor
      · intro hx
        rcases List.mem_cons.mp hx with rfl | hx
        · exact ⟨List.mem_cons_self _ _, hp⟩
        · obtain ⟨h1, h2⟩ := (ih ht x).mp hx
          exact ⟨List.mem_cons_of_mem a h1, h2⟩
      · rintro ⟨hx, hxi⟩
        rcases List.mem_cons.mp hx with rfl | hx
        · exact List.mem_cons_self _ _
        · exact List.mem_cons_of_mem a ((ih ht x).mpr ⟨hx, hxi⟩)

theorem sortLE_trans (sb : SortBy) (so : SortOrder) :
    ∀ a b c : Item, sortLE sb so a b → sortLE sb so b c → sortLE sb so a c := by
  intro a b c h1 h2
  cases sb <;> cases so <;>
    simp only [sortLE, fieldLE, decide_eq_true_eq] at * <;>
    first
    | exact le_trans h1 h2
    | exact le_trans h2 h1

theorem sortLE_total (sb : SortBy) (so : SortOrder) :
    ∀ a b : Item, sortLE sb so a b || sortLE sb so b a := by
  intro a b
  cases sb <;> cases so <;>
    simp only [sortLE, fieldLE, Bool.or_eq_true, decide_eq_true_eq] <;>
    exact le_total _ _

theorem sliceSql_sublist (skip limit : Int) (l : List Item) :
    (sliceSql skip limit l).Sublist l := by
  unfold sliceSql
  by_cases h : limit < 0
  · simpa [h] using List.drop_sublist skip.toNat l
  · simp only [h, if_false]
    exact (List.take_sublist _ _).trans (List.drop_sublist _ _)

theorem setFirst_mem_sub (p : Item → Bool) (r' : Item) :
    ∀ (l : List Item) (x : Item), x ∈ setFirst p r' l → x = r' ∨ x ∈ l := by
  intro l
  induction l with
  | nil => intro x hx; simp [setFirst] at hx
  | cons a t ih =>
    intro x hx
    by_cases ha : p a
    · rw [show setFirst p r' (a :: t) = r' :: t by simp [setFirst, ha]] at hx
      rcases List.mem_cons.mp hx with rfl | hx
      · exact Or.inl rfl
      · exact Or.inr (List.mem_cons_of_mem a hx)
    · rw [show setFirst p r' (a :: t) = a :: setFirst p r' t by
        simp [setFirst, ha]] at hx
      rcases List.mem_cons.mp hx with rfl | hx
      · exact Or.inr (List.mem_cons_self _ _)
      · rcases ih x hx with h | h
        · exact Or.inl h
        · exact Or.inr (List.mem_cons_of_mem a h)

theorem setFirst_map_eq {α : Type} (p : Item → Bool) (r' : Item)
    (f : Item → α) (hf : ∀ x : Item, p x = true → f r' = f x) :
    ∀ l : List Item, (setFirst p r' l).map f = l.map f := by
  intro l
  induction l with
  | nil => rfl
  | cons a t ih =>
    by_cases ha : p a
    · simp [setFirst, ha, hf a ha]
    · simp [setFirst, ha, ih]

theorem nodup_titles_setFirst (item_id : Nat) (r' : Item) (hr' : r'.id = item_id) :
    ∀ l : List Item, (l.map Item.id).Nodup → (l.map Item.title).Nodup →
      (∀ x ∈ l, x.id ≠ item_id → x.title ≠ r'.title) →
      ((setFirst (fun x => x.id == item_id) r' l).map Item.title).Nodup := by
  intro l
  induction l with
  | nil => intro _ _ _; simp [setFirst]
  | cons a t ih =>
    intro hId hT hfr
    rw [List.map_cons, List.nodup_cons] at hId hT
    by_cases hp : a.id = item_id
    · rw [show setFirst (fun x => x.id == item_id) r' (a :: t) = r' :: t by
        simp [setFirst, hp]]
      rw [List.map_cons, List.nodup_cons]
      refine ⟨?_, hT.2⟩
      intro hmem
      obtain ⟨x, hx, hxt⟩ := List.mem_map.mp hmem
      have hxid : x.id ≠ item_id := by
        intro hxi
        have hmm : x.id ∈ List.map Item.id t := List.mem_map_of_mem Item.id hx
        rw [hxi, ← hp] at hmm
        exact hId.1 hmm
      exact hfr x (List.mem_cons_of_mem a hx) hxid hxt
    · rw [show setFirst (fun x => x.id == item_id) r' (a :: t) =
          a :: setFirst (fun x => x.id == item_id) r' t by
        simp [setFirst, hp]]
      rw [List.map_cons, List.nodup_cons]
      constructor
      · intro hmem
        obtain ⟨x, hx, hxt⟩ := List.mem_map.mp hmem
        rcases setFirst_mem_sub _ _ t x hx with rfl | hx'
        · exact hfr a (List.mem_cons_self _ _) hp hxt.symm
        · have hmm : x.title ∈ List.map Item.title t :=
            List.mem_map_of_mem Item.title hx'
          rw [hxt] at hmm
          exact hT.1 hmm
      · exact ih hId.2 hT.2
          (fun x hx => hfr x (List.mem_cons_of_mem a hx))

theorem uniqueTitles_create_item (db : DB) (item : ItemCreate)
    (h : uniqueTitles db.rows) : uniqueTitles (create_item db item).1.rows := by
  cases hf : db.rows.find? (fun r => r.title == item.title) with
  | some r =>
    have heq : (create_item db item).1.rows = db.rows := by
      simp [create_item, hf]
    rwa [heq]
  | none =>
    have hrows : (create_item db item).1.rows =
        db.rows ++ [⟨db.nextId, item.title, item.description,
          item.completed, item.priority⟩] := by
      simp [create_item, hf]
    rw [List.find?_eq_none] at hf
    unfold uniqueTitles at h ⊢
    rw [hrows, List.map_append, List.nodup_append]
    refine ⟨h, List.nodup_singleton _, ?_⟩
    intro t ht1 ht2
    simp only [List.map_cons, List.map_nil, List.mem_singleton] at ht2
    subst ht2
    obtain ⟨r, hr, hrt⟩ := List.mem_map.mp ht1
    exact absurd (by simp [hrt]) (hf r hr)

theorem uniqueTitles_update_item (db : DB) (item_id : Nat) (item : ItemCreate)
    (hIds : (db.rows.map Item.id).Nodup) (h : uniqueTitles db.rows) :
    uniqueTitles (update_item db item_id item).1.rows := by
  cases hf : db.rows.find? (fun r => r.id == item_id) with
  | none =>
    have heq : (update_item db item_id item).1.rows = db.rows := by
      simp [update_item, hf]
    rwa [heq]
  | some r =>
    cases hany : db.rows.any (fun x => x.id != item_id && x.title == item.title) with
    | true =>
      have heq : (update_item db item_id item).1.rows = db.rows := by
        simp [update_item, hf, hany]
      rwa [heq]
    | false =>
      have hrows : (update_item db item_id item).1.rows =
          setFirst (fun x => x.id == item_id) (updateRow item r) db.rows := by
        simp [update_item, hf, hany]
      have hrid : r.id = item_id := by
        have := List.find?_some hf
        simpa using this
      have hfr : ∀ x ∈ db.rows, x.id ≠ item_id → x.title ≠ item.title := by
        rw [List.any_eq_false] at hany
        intro x hx h1 h2
        exact hany x hx (by simp [h1, h2])
      rw [hrows]
      exact nodup_titles_setFirst item_id (updateRow item r)
        (by simpa [updateRow] using hrid) db.rows hIds h
        (by simpa [updateRow] using hfr)

theorem uniqueTitles_delete_item (db : DB) (item_id : Nat)
    (h : uniqueTitles db.rows) : uniqueTitles (delete_item db item_id).1.rows := by
  cases hf : db.rows.find? (fun r => r.id == item_id) with
  | none =>
    have heq : (delete_item db item_id).1.rows = db.rows := by
      simp [delete_item, hf]
    rwa [heq]
  | some r =>
    have hrows : (delete_item db item_id).1.rows =
        db.rows.eraseP (fun x => x.id == item_id) := by
      simp [delete_item, hf]
    unfold uniqueTitles at h ⊢
    rw [hrows]
    exact h.sublist ((List.eraseP_sublist _).map Item.title)

theorem WF_create_item (db : DB) (item : ItemCreate) (h : db.WF) :
    (create_item db item).1.WF := by
  cases hf : db.rows.find? (fun r => r.title == item.title) with
  | some r =>
    have heq : (create_item db item).1 = db := by
      simp [create_item, hf]
    rwa [heq]
  | none =>
    have heq : (create_item db item).1 =
        ⟨db.rows ++ [⟨db.nextId, item.title, item.description,
          item.completed, item.priority⟩], db.nextId + 1⟩ := by
      simp [create_item, hf]
    rw [heq]
    constructor
    · intro r hr
      rcases List.mem_append.mp hr with hr | hr
      · exact Nat.lt_succ_of_lt (h.1 r hr)
      · simp only [List.mem_singleton] at hr
        subst hr
        exact Nat.lt_succ_self _
    · rw [List.map_append, List.nodup_append]
      refine ⟨h.2, List.nodup_singleton _, ?_⟩
      intro t ht1 ht2
      simp only [List.map_cons, List.map_nil, List.mem_singleton] at ht2
      subst ht2
      obtain ⟨r, hr, hrt⟩ := List.mem_map.mp ht1
      exact absurd (hrt ▸ h.1 r hr) (lt_irrefl _)

theorem WF_update_item (db : DB) (item_id : Nat) (item : ItemCreate)
    (h : db.WF) : (update_item db item_id item).1.WF := by
  cases hf : db.rows.find? (fun r => r.id == item_id) with
  | none =>
    have heq : (update_item db item_id item).1 = db := by
      simp [update_item, hf]
    rwa [heq]
  | some r =>
    cases hany : db.rows.any (fun x => x.id != item_id && x.title == item.title) with
    | true =>
      have heq : (update_item db item_id item).1 = db := by
        simp [update_item, hf, hany]
      rwa [heq]
    | false =>
      have heq : (update_item db item_id item).1 =
          ⟨setFirst (fun x => x.id == item_id) (updateRow item r) db.rows,
            db.nextId⟩ := by
        simp [update_item, hf, hany]
      have hrid : r.id = item_id := by
        have := List.find?_some hf
        simpa using this
      have hrmem : r ∈ db.rows := List.mem_of_find?_eq_some hf
      rw [heq]
      constructor
      · intro x hx
        rcases setFirst_mem_sub _ _ db.rows x hx with rfl | hx'
        · simpa [updateRow] using h.1 r hrmem
        · exact h.1 x hx'
      · rw [setFirst_map_eq _ _ Item.id ?ids]
        · exact h.2
        case ids =>
          intro x hx
          have hxid : x.id = item_id := by simpa using hx
          simp [updateRow, hrid, hxid]

theorem WF_delete_item (db : DB) (item_id : Nat) (h : db.WF) :
    (delete_item db item_id).1.WF := by
  cases hf : db.rows.find? (fun r => r.id == item_id) with
  | none =>
    have heq : (delete_item db item_id).1 = db := by
      simp [delete_item, hf]
    rwa [heq]
  | some r =>
    have heq : (delete_item db item_id).1 =
        ⟨db.rows.eraseP (fun x => x.id == item_id), db.nextId⟩ := by
      simp [delete_item, hf]
    rw [heq]
    constructor
    · intro x hx
      exact h.1 x (List.eraseP_subset _ hx)
    · exact h.2.sublist ((List.eraseP_sublist _).map Item.id)

theorem reachable_WF_unique (db : DB) (h : Reachable db) :
    db.WF ∧ uniqueTitles db.rows := by
  induction h with
  | init => exact ⟨⟨by simp, by simp⟩, by simp [uniqueTitles]⟩
  | create item _ ih =>
    exact ⟨WF_create_item _ item ih.1, uniqueTitles_create_item _ item ih.2⟩
  | update item_id item _ ih =>
    exact ⟨WF_update_item _ item_id item ih.1,
      uniqueTitles_update_item _ item_id item ih.1.2 ih.2⟩
  | delete item_id _ ih =>
    exact ⟨WF_delete_item _ item_id ih.1, uniqueTitles_delete_item _ item_id ih.2⟩

/-! ### Claim theorems -/

/-- C2: for every database state and every create request whose title equals
the title of some existing task, `create_item` fails with HTTP 400
("Item with this title already exists") and the table is left unchanged:
same rows, same row count. -/
theorem create_conflict_unchanged (db : DB) (item : ItemCreate)
    (hdup : ∃ r ∈ db.rows, r.title = item.title) :
    create_item db item =
      (db, .error (.badRequest "Item with this title already exists")) ∧
    (create_item db item).1.rows = db.rows ∧
    (create_item db item).1.rows.length = db.rows.length := by
  have h : (db.rows.find? (fun r => r.title == item.title)).isSome := by
    rw [List.find?_isSome]
    obtain ⟨r, hr, ht⟩ := hdup
    exact ⟨r, hr, by simp [ht]⟩
  obtain ⟨r, hr⟩ := Option.isSome_iff_exists.mp h
  refine ⟨?_, ?_, ?_⟩ <;> simp [create_item, hr]

/-- Witness for C2 at a concrete database with one row titled "a". -/
theorem create_conflict_unchanged_witness :
    create_item ⟨[⟨1, "a", none, false, 1⟩], 2⟩ ⟨"a", some "dup", true, 2⟩ =
      (⟨[⟨1, "a", none, false, 1⟩], 2⟩,
        .error (.badRequest "Item with this title already exists")) ∧
    (create_item ⟨[⟨1, "a", none, false, 1⟩], 2⟩ ⟨"a", some "dup", true, 2⟩).1.rows =
      [⟨1, "a", none, false, 1⟩] ∧
    (create_item ⟨[⟨1, "a", none, false, 1⟩], 2⟩ ⟨"a", some "dup", true, 2⟩).1.rows.length =
      [(⟨1, "a", none, false, 1⟩ : Item)].length :=
  create_conflict_unchanged ⟨[⟨1, "a", none, false, 1⟩], 2⟩ ⟨"a", some "dup", true, 2⟩
    ⟨⟨1, "a", none, false, 1⟩, by simp, rfl⟩

/-- C8: updating an id that matches no existing task fails with HTTP 404
("Item not found") and the database state is returned unchanged. -/
theorem update_missing_notFound (db : DB) (item_id : Nat) (item : ItemCreate)
    (hnone : ∀ r ∈ db.rows, r.id ≠ item_id) :
    update_item db item_id item = (db, .error (.notFound "Item not found")) := by
  have h : db.rows.find? (fun x => x.id == item_id) = none := by
    rw [List.find?_eq_none]
    intro x hx
    simp [hnone x hx]
  simp [update_item, h]

/-- Witness for C8: updating id 5 in a one-row database that only holds
id 1. -/
theorem update_missing_notFound_witness :
    update_item ⟨[⟨1, "a", none, false, 1⟩], 2⟩ 5 ⟨"b", none, false, 1⟩ =
      (⟨[⟨1, "a", none, false, 1⟩], 2⟩, .error (.notFound "Item not found")) :=
  update_missing_notFound ⟨[⟨1, "a", none, false, 1⟩], 2⟩ 5 ⟨"b", none, false, 1⟩
    (by decide)

/-- C10: `skip` and `limit` carry no boundary validation: for all integers,
including negative ones, query-parameter validation succeeds exactly when
`sort_by` and `sort_order` match their patterns, and passes `skip` and
`limit` through to the query unchanged. -/
theorem list_params_unbounded (skip limit : Int) (sort_by sort_order : String) :
    ((validateListParams skip limit sort_by sort_order).isSome ↔
      (parseSortBy sort_by).isSome ∧ (parseSortOrder sort_order).isSome) ∧
    (∀ f o, parseSortBy sort_by = some f → parseSortOrder sort_order = some o →
      validateListParams skip limit sort_by sort_order = some (skip, limit, f, o)) := by
  constructor
  · unfold validateListParams
    cases hf : parseSortBy sort_by <;> cases ho : parseSortOrder sort_order <;> simp
  · intro f o hf ho
    unfold validateListParams
    rw [hf, ho]

/-- Witness for C10 at negative skip and limit: skip = -5 and limit = -7
pass validation with `sort_by=priority`, `sort_order=desc`. -/
theorem list_params_unbounded_witness :
    ((validateListParams (-5) (-7) "priority" "desc").isSome ↔
      (parseSortBy "priority").isSome ∧ (parseSortOrder "desc").isSome) ∧
    (∀ f o, parseSortBy "priority" = some f → parseSortOrder "desc" = some o →
      validateListParams (-5) (-7) "priority" "desc" = some (-5, -7, f, o)) :=
  list_params_unbounded (-5) (-7) "priority" "desc"

/-- C5 (confirmed): a payload whose priority is outside \x7b1, 2, 3\x7d fails
Pydantic validation (hence FastAPI rejects the request before the handler
and its database session run, so nothing is written), while a priority in
\x7b1, 2, 3\x7d is accepted unchanged into the validated model used by both
create and update. -/
theorem validate_priority_spec (raw : RawItem) (p : Int)
    (hp : raw.priority = some p) :
    (¬(p = 1 ∨ p = 2 ∨ p = 3) →
      ItemCreate.validate raw = .error "Field required" ∨
      ItemCreate.validate raw =
        .error "Priority must be 1 (Low), 2 (Medium), or 3 (High)") ∧
    ((p = 1 ∨ p = 2 ∨ p = 3) → ∀ t, raw.title = some t →
      ItemCreate.validate raw =
        .ok ⟨t, raw.description.getD none, raw.completed.getD false, p⟩) := by
  constructor
  · intro hbad
    unfold ItemCreate.validate
    cases ht : raw.title with
    | none => exact Or.inl rfl
    | some t =>
      rw [hp]
      simp only [Option.getD_some]
      rw [if_neg hbad]
      exact Or.inr rfl
  · intro hgood t ht
    unfold ItemCreate.validate
    rw [ht, hp]
    simp only [Option.getD_some]
    rw [if_pos hgood]

/-- Witness for C5: priority 2 with a present title is accepted unchanged,
at a concrete payload. -/
theorem validate_priority_spec_witness :
    (¬((2 : Int) = 1 ∨ (2 : Int) = 2 ∨ (2 : Int) = 3) →
      ItemCreate.validate ⟨some "buy milk", none, none, some 2⟩ = .error "Field required" ∨
      ItemCreate.validate ⟨some "buy milk", none, none, some 2⟩ =
        .error "Priority must be 1 (Low), 2 (Medium), or 3 (High)") ∧
    (((2 : Int) = 1 ∨ (2 : Int) = 2 ∨ (2 : Int) = 3) →
      ∀ t, (⟨some "buy milk", none, none, some 2⟩ : RawItem).title = some t →
      ItemCreate.validate ⟨some "buy milk", none, none, some 2⟩ =
        .ok ⟨t, (none : Option String), false, 2⟩) :=
  validate_priority_spec ⟨some "buy milk", none, none, some 2⟩ 2 rfl

/-- C4 counterexample: a create request whose title is the empty string does
NOT fail validation — Pydantic declares `title: str` with no minimum
length, so the empty title passes validation and reaches the database
write. -/
theorem empty_title_passes_validation :
    ItemCreate.validate ⟨some "", none, none, none⟩ = .ok ⟨"", none, false, 1⟩ :=
  rfl

/-- C4 (amended): the title field is required — a create request with no
title fails validation before any database access and performs no write —
but non-emptiness is not enforced: a present title, the empty string
included, is accepted whenever the priority is valid. -/
theorem title_required_not_nonempty :
    (∀ raw : RawItem, raw.title = none →
      ItemCreate.validate raw = .error "Field required") ∧
    (∀ d c, ItemCreate.validate ⟨some "", d, c, none⟩ =
      .ok ⟨"", d.getD none, c.getD false, 1⟩) := by
  constructor
  · intro raw h
    unfold ItemCreate.validate
    rw [h]
  · intro d c
    rfl

/-- Witness for C4 (amended): a payload missing the title is rejected, and
the empty-titled payload is accepted, at concrete inputs. -/
theorem title_required_not_nonempty_witness :
    ItemCreate.validate ⟨none, some (some "d"), some true, some 3⟩ =
      .error "Field required" ∧
    ItemCreate.validate ⟨some "", none, none, none⟩ =
      .ok ⟨"", (none : Option (Option String)).getD none,
        (none : Option Bool).getD false, 1⟩ :=
  ⟨title_required_not_nonempty.1 ⟨none, some (some "d"), some true, some 3⟩ rfl,
    title_required_not_nonempty.2 none none⟩

/-- C3: creating a task whose title is fresh and then fetching by the
returned id gives back a record equal field-for-field to what was sent,
with the id the database generated. -/
theorem create_then_get_roundtrip (db : DB) (item : ItemCreate)
    (hWF : db.WF) (hfresh : ∀ r ∈ db.rows, r.title ≠ item.title) :
    (create_item db item).2 =
      .ok ⟨db.nextId, item.title, item.description, item.completed, item.priority⟩ ∧
    get_item (create_item db item).1 db.nextId =
      .ok ⟨db.nextId, item.title, item.description, item.completed, item.priority⟩ := by
  have hfind : db.rows.find? (fun r => r.title == item.title) = none := by
    rw [List.find?_eq_none]
    intro r hr
    simp [hfresh r hr]
  have hrows : (create_item db item).1.rows =
      db.rows ++ [⟨db.nextId, item.title, item.description, item.completed,
        item.priority⟩] := by
    simp [create_item, hfind]
  refine ⟨by simp [create_item, hfind], ?_⟩
  unfold get_item
  rw [hrows, find?_concat_of_fresh _ _ (by simp) db.rows ?fresh]
  case fresh =>
    intro r hr
    simp only [beq_eq_false_iff_ne, ne_eq]
    exact Nat.ne_of_lt (hWF.1 r hr)

/-- Witness for C3: create "buy milk" in a one-row well-formed database and
fetch it back by the generated id 2. -/
theorem create_then_get_roundtrip_witness :
    (create_item ⟨[⟨1, "a", none, false, 1⟩], 2⟩ ⟨"buy milk", some "2l", true, 3⟩).2 =
      .ok ⟨2, "buy milk", some "2l", true, 3⟩ ∧
    get_item (create_item ⟨[⟨1, "a", none, false, 1⟩], 2⟩
        ⟨"buy milk", some "2l", true, 3⟩).1 2 =
      .ok ⟨2, "buy milk", some "2l", true, 3⟩ :=
  create_then_get_roundtrip ⟨[⟨1, "a", none, false, 1⟩], 2⟩
    ⟨"buy milk", some "2l", true, 3⟩ (by decide) (by decide)

/-- C7 counterexample: updating row 1 of the two-row table with titles
"a" and "b" to the title "b" does not overwrite the row — the UNIQUE index
on `title` (main.py line 19) makes the commit raise `IntegrityError`
(HTTP 500), and the rollback leaves the table unchanged — so an update of
an existing id with a validated payload does not always succeed. -/
theorem update_duplicate_title_integrity_error :
    update_item ⟨[⟨1, "a", none, false, 1⟩, ⟨2, "b", none, false, 1⟩], 3⟩ 1
        ⟨"b", none, false, 1⟩ =
      (⟨[⟨1, "a", none, false, 1⟩, ⟨2, "b", none, false, 1⟩], 3⟩,
        .error (.internalError "UNIQUE constraint failed: items.title")) :=
  rfl

/-- C7 (amended): updating an existing id with a validated replacement
payload whose title does not duplicate any other row's title overwrites
exactly the four mutable fields of that row, keeps its id, leaves every
other row unchanged (same position, same contents, same row count, same
next id), and returns the updated record.  (When the payload title
duplicates another row's, the commit fails on the UNIQUE index instead —
see the counterexample.) -/
theorem update_overwrites_fields (db : DB) (item_id : Nat) (item : ItemCreate)
    (r : Item) (hfind : db.rows.find? (fun x => x.id == item_id) = some r)
    (hfresh : ∀ x ∈ db.rows, x.id ≠ item_id → x.title ≠ item.title) :
    update_item db item_id item =
      (⟨setFirst (fun x => x.id == item_id) (updateRow item r) db.rows, db.nextId⟩,
        .ok (updateRow item r)) ∧
    (updateRow item r).title = item.title ∧
    (updateRow item r).description = item.description ∧
    (updateRow item r).completed = item.completed ∧
    (updateRow item r).priority = item.priority ∧
    (updateRow item r).id = r.id ∧
    r.id = item_id ∧
    updateRow item r ∈ (update_item db item_id item).1.rows ∧
    (update_item db item_id item).1.rows.length = db.rows.length ∧
    (update_item db item_id item).1.nextId = db.nextId ∧
    ∀ (i : Nat) (x : Item), db.rows[i]? = some x → x.id ≠ item_id →
      (update_item db item_id item).1.rows[i]? = some x := by
  have hrid : r.id = item_id := by
    have := List.find?_some hfind
    simpa using this
  have hany : db.rows.any (fun x => x.id != item_id && x.title == item.title) =
      false := by
    rw [List.any_eq_false]
    intro x hx
    simp only [Bool.and_eq_true, bne_iff_ne, beq_iff_eq, not_and]
    exact hfresh x hx
  have h1 : update_item db item_id item =
      (⟨setFirst (fun x => x.id == item_id) (updateRow item r) db.rows, db.nextId⟩,
        .ok (updateRow item r)) := by
    simp [update_item, hfind, hany]
  refine ⟨h1, rfl, rfl, rfl, rfl, rfl, hrid, ?_, ?_, ?_, ?_⟩
  · rw [h1]
    exact setFirst_mem _ _ db.rows r hfind
  · rw [h1]
    exact setFirst_length _ _ db.rows
  · rw [h1]
  · intro i x hx hne
    rw [h1]
    exact setFirst_get?_of_not _ _ db.rows i x hx (by simp [hne])

/-- Witness for C7: replace row id 2 of a two-row database with a new
payload; row id 1 is untouched. -/
theorem update_overwrites_fields_witness :
    update_item ⟨[⟨1, "a", none, false, 1⟩, ⟨2, "b", none, false, 2⟩], 3⟩ 2
        ⟨"c", some "d", true, 3⟩ =
      (⟨setFirst (fun x => x.id == 2)
          (updateRow ⟨"c", some "d", true, 3⟩ ⟨2, "b", none, false, 2⟩)
          [⟨1, "a", none, false, 1⟩, ⟨2, "b", none, false, 2⟩], 3⟩,
        .ok (updateRow ⟨"c", some "d", true, 3⟩ ⟨2, "b", none, false, 2⟩)) ∧
    (updateRow ⟨"c", some "d", true, 3⟩ ⟨2, "b", none, false, 2⟩).title = "c" ∧
    (updateRow ⟨"c", some "d", true, 3⟩ ⟨2, "b", none, false, 2⟩).description = some "d" ∧
    (updateRow ⟨"c", some "d", true, 3⟩ ⟨2, "b", none, false, 2⟩).completed = true ∧
    (updateRow ⟨"c", some "d", true, 3⟩ ⟨2, "b", none, false, 2⟩).priority = 3 ∧
    (updateRow ⟨"c", some "d", true, 3⟩ ⟨2, "b", none, false, 2⟩).id =
      (⟨2, "b", none, false, 2⟩ : Item).id ∧
    (⟨2, "b", none, false, 2⟩ : Item).id = 2 ∧
    updateRow ⟨"c", some "d", true, 3⟩ ⟨2, "b", none, false, 2⟩ ∈
      (update_item ⟨[⟨1, "a", none, false, 1⟩, ⟨2, "b", none, false, 2⟩], 3⟩ 2
        ⟨"c", some "d", true, 3⟩).1.rows ∧
    (update_item ⟨[⟨1, "a", none, false, 1⟩, ⟨2, "b", none, false, 2⟩], 3⟩ 2
        ⟨"c", some "d", true, 3⟩).1.rows.length =
      ([⟨1, "a", none, false, 1⟩, ⟨2, "b", none, false, 2⟩] : List Item).length ∧
    (update_item ⟨[⟨1, "a", none, false, 1⟩, ⟨2, "b", none, false, 2⟩], 3⟩ 2
        ⟨"c", some "d", true, 3⟩).1.nextId = 3 ∧
    (∀ (i : Nat) (x : Item),
      ([⟨1, "a", none, false, 1⟩, ⟨2, "b", none, false, 2⟩] : List Item)[i]? = some x →
      x.id ≠ 2 →
      (update_item ⟨[⟨1, "a", none, false, 1⟩, ⟨2, "b", none, false, 2⟩], 3⟩ 2
        ⟨"c", some "d", true, 3⟩).1.rows[i]? = some x) :=
  update_overwrites_fields ⟨[⟨1, "a", none, false, 1⟩, ⟨2, "b", none, false, 2⟩], 3⟩
    2 ⟨"c", some "d", true, 3⟩ ⟨2, "b", none, false, 2⟩ (by decide) (by decide)

/-- C9: in a well-formed database, deleting an absent id fails with HTTP
404 and changes nothing, while deleting a present id returns the
confirmation message, removes exactly that row (every other row is kept,
the row count drops by one), and a subsequent fetch of the same id fails
with HTTP 404. -/
theorem delete_then_get_notFound (db : DB) (item_id : Nat) (hWF : db.WF) :
    ((∀ r ∈ db.rows, r.id ≠ item_id) →
      delete_item db item_id = (db, .error (.notFound "Item not found"))) ∧
    ((∃ r ∈ db.rows, r.id = item_id) →
      (delete_item db item_id).2 = .ok "Item deleted" ∧
      (delete_item db item_id).1.nextId = db.nextId ∧
      (delete_item db item_id).1.rows.length + 1 = db.rows.length ∧
      (∀ x : Item, x ∈ (delete_item db item_id).1.rows ↔
        x ∈ db.rows ∧ x.id ≠ item_id) ∧
      get_item (delete_item db item_id).1 item_id =
        .error (.notFound "Item not found")) := by
  constructor
  · intro habs
    have h : db.rows.find? (fun x => x.id == item_id) = none := by
      rw [List.find?_eq_none]
      intro x hx
      simp [habs x hx]
    simp [delete_item, h]
  · rintro ⟨r, hr, hrid⟩
    have hsome : (db.rows.find? (fun x => x.id == item_id)).isSome :=
      List.find?_isSome.mpr ⟨r, hr, by simp [hrid]⟩
    obtain ⟨r0, h0⟩ := Option.isSome_iff_exists.mp hsome
    have hrows : (delete_item db item_id).1.rows =
        db.rows.eraseP (fun x => x.id == item_id) := by
      simp [delete_item, h0]
    have hmem := mem_eraseP_id item_id db.rows hWF.2
    refine ⟨by simp [delete_item, h0], by simp [delete_item, h0], ?_, ?_, ?_⟩
    · rw [hrows, List.length_eraseP_of_mem hr (by simp [hrid])]
      have : 0 < db.rows.length := List.length_pos.mpr (List.ne_nil_of_mem hr)
      omega
    · intro x
      rw [hrows]
      exact hmem x
    · unfold get_item
      have hnone : (delete_item db item_id).1.rows.find?
          (fun x => x.id == item_id) = none := by
        rw [List.find?_eq_none]
        intro x hx
        rw [hrows] at hx
        simp [((hmem x).mp hx).2]
      rw [hnone]

/-- Witness for C9 on a concrete two-row database, deleting id 1. -/
theorem delete_then_get_notFound_witness :
    ((∀ r ∈ ([⟨1, "a", none, false, 1⟩, ⟨2, "b", none, false, 2⟩] : List Item),
        r.id ≠ 1) →
      delete_item ⟨[⟨1, "a", none, false, 1⟩, ⟨2, "b", none, false, 2⟩], 3⟩ 1 =
        (⟨[⟨1, "a", none, false, 1⟩, ⟨2, "b", none, false, 2⟩], 3⟩,
          .error (.notFound "Item not found"))) ∧
    ((∃ r ∈ ([⟨1, "a", none, false, 1⟩, ⟨2, "b", none, false, 2⟩] : List Item),
        r.id = 1) →
      (delete_item ⟨[⟨1, "a", none, false, 1⟩, ⟨2, "b", none, false, 2⟩], 3⟩ 1).2 =
        .ok "Item deleted" ∧
      (delete_item ⟨[⟨1, "a", none, false, 1⟩, ⟨2, "b", none, false, 2⟩], 3⟩ 1).1.nextId = 3 ∧
      (delete_item ⟨[⟨1, "a", none, false, 1⟩, ⟨2, "b", none, false, 2⟩], 3⟩ 1).1.rows.length + 1 =
        ([⟨1, "a", none, false, 1⟩, ⟨2, "b", none, false, 2⟩] : List Item).length ∧
      (∀ x : Item,
        x ∈ (delete_item ⟨[⟨1, "a", none, false, 1⟩, ⟨2, "b", none, false, 2⟩], 3⟩ 1).1.rows ↔
        x ∈ ([⟨1, "a", none, false, 1⟩, ⟨2, "b", none, false, 2⟩] : List Item) ∧ x.id ≠ 1) ∧
      get_item (delete_item ⟨[⟨1, "a", none, false, 1⟩, ⟨2, "b", none, false, 2⟩], 3⟩ 1).1 1 =
        .error (.notFound "Item not found")) :=
  delete_then_get_notFound ⟨[⟨1, "a", none, false, 1⟩, ⟨2, "b", none, false, 2⟩], 3⟩
    1 (by decide)

/-- C6: for every database state and every validated list request,
`get_items` returns the stored rows ordered by the requested field in the
requested direction (a sorted permutation of the table) and then sliced by
offset `skip` and `limit`; in particular with `sort_by=priority` and
`sort_order=desc` the returned sequence is in non-increasing priority
order. -/
theorem get_items_sorted_sliced (db : DB) (skip limit : Int)
    (sb : SortBy) (so : SortOrder) :
    get_items db skip limit sb so =
      sliceSql skip limit (db.rows.mergeSort (sortLE sb so)) ∧
    (db.rows.mergeSort (sortLE sb so)).Perm db.rows ∧
    List.Pairwise (fun a b => sortLE sb so a b = true)
      (get_items db skip limit sb so) ∧
    List.Pairwise (fun a b => b.priority ≤ a.priority)
      (get_items db skip limit .priority .desc) := by
  have hsorted : ∀ (sb' : SortBy) (so' : SortOrder),
      List.Pairwise (fun a b => sortLE sb' so' a b = true)
        (db.rows.mergeSort (sortLE sb' so')) := by
    intro sb' so'
    exact List.sorted_mergeSort (sortLE_trans sb' so') (sortLE_total sb' so')
      db.rows
  refine ⟨rfl, List.mergeSort_perm db.rows _, ?_, ?_⟩
  · exact List.Pairwise.sublist (sliceSql_sublist skip limit _) (hsorted sb so)
  · have h := List.Pairwise.sublist (sliceSql_sublist skip limit _)
      (hsorted .priority .desc)
    refine h.imp ?_
    intro a b hab
    simpa [sortLE, fieldLE] using hab

/-- C1: in every reachable database state no two tasks share a title, and
each of create, update and delete preserves the invariant: create
pre-checks the title, delete only removes a row, and although update
performs no pre-check, the database-level UNIQUE index on `title`
(main.py line 19) makes the commit of a duplicating update fail with
`IntegrityError`, rolling the transaction back.  The update conjunct
assumes the primary-key guarantee that ids are distinct, which every
reachable state satisfies. -/
theorem unique_titles_invariant :
    (∀ db : DB, Reachable db → uniqueTitles db.rows) ∧
    (∀ (db : DB) (item : ItemCreate),
      uniqueTitles db.rows → uniqueTitles (create_item db item).1.rows) ∧
    (∀ (db : DB) (item_id : Nat) (item : ItemCreate),
      (db.rows.map Item.id).Nodup → uniqueTitles db.rows →
      uniqueTitles (update_item db item_id item).1.rows) ∧
    (∀ (db : DB) (item_id : Nat),
      uniqueTitles db.rows → uniqueTitles (delete_item db item_id).1.rows) :=
  ⟨fun db h => (reachable_WF_unique db h).2,
    uniqueTitles_create_item,
    uniqueTitles_update_item,
    uniqueTitles_delete_item⟩

/-- Witness for C1: a state reached by one create from startup has unique
titles, and each preservation conjunct applied at a concrete two-row
database, including an update that reuses another row's title. -/
theorem unique_titles_invariant_witness :
    uniqueTitles (create_item ⟨[], 1⟩ ⟨"a", none, false, 1⟩).1.rows ∧
    uniqueTitles
      (create_item ⟨[⟨1, "a", none, false, 1⟩, ⟨2, "b", none, false, 1⟩], 3⟩
        ⟨"c", none, false, 1⟩).1.rows ∧
    uniqueTitles
      (update_item ⟨[⟨1, "a", none, false, 1⟩, ⟨2, "b", none, false, 1⟩], 3⟩ 1
        ⟨"b", none, false, 1⟩).1.rows ∧
    uniqueTitles
      (delete_item ⟨[⟨1, "a", none, false, 1⟩, ⟨2, "b", none, false, 1⟩], 3⟩ 1).1.rows :=
  ⟨unique_titles_invariant.1 _
      (Reachable.create ⟨"a", none, false, 1⟩ Reachable.init),
    unique_titles_invariant.2.1
      ⟨[⟨1, "a", none, false, 1⟩, ⟨2, "b", none, false, 1⟩], 3⟩
      ⟨"c", none, false, 1⟩ (by decide),
    unique_titles_invariant.2.2.1
      ⟨[⟨1, "a", none, false, 1⟩, ⟨2, "b", none, false, 1⟩], 3⟩ 1
      ⟨"b", none, false, 1⟩ (by decide) (by decide),
    unique_titles_invariant.2.2.2
      ⟨[⟨1, "a", none, false, 1⟩, ⟨2, "b", none, false, 1⟩], 3⟩ 1 (by decide)⟩

end Todo
